import Mathlib

/-!
Verification development for the kairos time-expression engine.

Shallow embedding of the Rust sources:
  * `src/util.rs`       : calendar utilities and the carry adjusters,
  * `src/timetype.rs`   : the `TimeType` expression tree and its evaluator,
  * `src/iter.rs`       : the recurrence iterator pipeline,
  * `src/parser/timetype.rs`, `src/parser/iterator.rs` : the nom-based parser.

Machine integers (`i64`, `i32`, `u32`) are modelled as `Int`; the `as u32` /
`as i32` casts appearing in error payloads are modelled explicitly as
wrap-around functions.  `chrono::NaiveDateTime` is modelled as a record of six
integers together with the validity check that `NaiveDate::from_ymd_opt` /
`and_hms_opt` perform (year-range limits of chrono are not modelled).
-/

namespace Kairos

/-- The six amount units.  In the Rust source the amount variants of `TimeType`
are six separate constructors `Seconds..Years`; here they are one constructor
indexed by this type. -/
inductive Unit6
  | second
  | minute
  | hour
  | day
  | month
  | year
deriving DecidableEq

/-- Model of `chrono::NaiveDateTime`: a plain record of the six calendar
fields.  chrono guarantees validity by construction; here validity is a
separate predicate checked by the constructor `mkDateTime` below. -/
structure M where
  y : Int
  mo : Int
  d : Int
  h : Int
  mi : Int
  s : Int
deriving DecidableEq

/-- The `TimeType` expression tree from `src/timetype.rs` (the six amount
constructors are merged into `amount`). -/
inductive TT
  | amount : Unit6 → Int → TT
  | moment : M → TT
  | add : TT → TT → TT
  | sub : TT → TT → TT
  | endOfYear : TT → TT
  | endOfMonth : TT → TT
  | endOfDay : TT → TT
  | endOfHour : TT → TT
  | endOfMinute : TT → TT
deriving DecidableEq

/-- The error type from `src/error.rs` (only the constructors reachable from
the embedded functions). -/
inductive Error
  | cannotAdd : TT → TT → Error
  | cannotSub : TT → TT → Error
  | cannotCalculateEndOfYearOn : TT → Error
  | cannotCalculateEndOfMonthOn : TT → Error
  | outOfBounds : Int → Int → Int → Int → Int → Int → Error
  | argumentErrorNotAnAmount : TT → Error
  | argumentErrorNotAMoment : String → Error
  | notADateInsideIterator : Error
deriving DecidableEq

/-- Every `Ok(...)` site in the Rust evaluator constructs either one of the six
amount variants or a `Moment` (inspect `do_calculate`, the `add_to_*` /
`sub_from_*` family and the `end_of_*` family: the fall-through arm
`x => Ok(x)` of `do_calculate` only sees leaf variants, and every other
success is built with an explicit leaf constructor).  The evaluator therefore
returns values of this restricted type; the match arms of the Rust source
that inspect an evaluation result for composite variants are unreachable. -/
inductive Reduced
  | amount : Unit6 → Int → Reduced
  | moment : M → Reduced
deriving DecidableEq

def Reduced.toTT : Reduced → TT
  | .amount u x => .amount u x
  | .moment m => .moment m

deriving instance DecidableEq for Except

/-- `is_leap_year` from `src/util.rs`.  Rust `%` is truncating remainder;
for the `== 0` / `!= 0` tests it agrees with Lean's `%` (both are zero exactly
on divisibility). -/
def is_leap_year (y : Int) : Bool :=
  y % 4 == 0 && (y % 100 != 0 || y % 400 == 0)

/-- `get_num_of_days_in_month` from `src/util.rs`. -/
def get_num_of_days_in_month (y m : Int) : Int :=
  if m == 1 || m == 3 || m == 5 || m == 7 || m == 8 || m == 10 || m == 12 then
    31
  else if m == 2 then
    if is_leap_year y then 29 else 28
  else
    30

theorem days_in_month_ge_28 (y m : Int) : 28 ≤ get_num_of_days_in_month y m := by
  unfold get_num_of_days_in_month
  split
  · omega
  · split
    · split <;> omega
    · omega

/-- Iterations of the `while d > get_num_of_days_in_month(y, mo)` loop of
`adjust_times_add`, bounded by a fuel counter.  The month length is at least
28, so the day count shrinks by at least 28 per iteration and a fuel of
`d.toNat` is always sufficient (`daysLoop_unfold` below recovers the exact
`while`-loop semantics). -/
def daysLoopAux : Nat → Int → Int → Int → Int × Int
  | 0, _, mo, d => (mo, d)
  | n + 1, y, mo, d =>
    if d > get_num_of_days_in_month y mo then
      daysLoopAux n y (mo + 1) (d - get_num_of_days_in_month y mo)
    else
      (mo, d)

/-- The `while d > get_num_of_days_in_month(y, mo)` loop of
`adjust_times_add`: subtract the current month length and advance the month.
`y` is not modified by the loop. -/
def daysLoop (y mo d : Int) : Int × Int := daysLoopAux d.toNat y mo d

theorem daysLoopAux_fuel (n₁ : Nat) : ∀ n₂ y mo d, d.toNat ≤ n₁ → d.toNat ≤ n₂ →
    daysLoopAux n₁ y mo d = daysLoopAux n₂ y mo d := by
  induction n₁ with
  | zero =>
    intro n₂ y mo d h1 _
    have hd : d ≤ 0 := by omega
    have := days_in_month_ge_28 y mo
    cases n₂ with
    | zero => rfl
    | succ m =>
      simp only [daysLoopAux]
      rw [if_neg (by omega)]
  | succ n ih =>
    intro n₂ y mo d _ h2
    have hdim := days_in_month_ge_28 y mo
    cases n₂ with
    | zero =>
      have hd : d ≤ 0 := by omega
      simp only [daysLoopAux]
      rw [if_neg (by omega)]
    | succ m =>
      simp only [daysLoopAux]
      by_cases hc : d > get_num_of_days_in_month y mo
      · rw [if_pos hc, if_pos hc]
        exact ih m y (mo + 1) (d - get_num_of_days_in_month y mo)
          (by omega) (by omega)
      · rw [if_neg hc, if_neg hc]

/-- The defining step of the `while d > ...` loop, recovered from the fueled
encoding. -/
theorem daysLoop_unfold (y mo d : Int) :
    daysLoop y mo d =
      if d > get_num_of_days_in_month y mo then
        daysLoop y (mo + 1) (d - get_num_of_days_in_month y mo)
      else
        (mo, d) := by
  unfold daysLoop
  have := days_in_month_ge_28 y mo
  by_cases hc : d > get_num_of_days_in_month y mo
  · rw [if_pos hc]
    have h1 : d.toNat = (d.toNat - 1) + 1 := by omega
    rw [h1]
    simp only [daysLoopAux]
    rw [if_pos hc]
    exact daysLoopAux_fuel _ _ y (mo + 1) _ (by omega) (le_refl _)
  · rw [if_neg hc]
    rcases Nat.eq_zero_or_eq_succ_pred d.toNat with h | h <;> rw [h] <;>
      simp only [daysLoopAux]
    rw [if_neg hc]

/-- Iterations of the `while mo > 12` loop of `adjust_times_add`, fueled;
a fuel of `mo.toNat` is always sufficient since the month count shrinks by
12 per iteration. -/
def monthsLoopAux : Nat → Int → Int → Int × Int
  | 0, y, mo => (y, mo)
  | n + 1, y, mo =>
    if mo > 12 then monthsLoopAux n (y + 1) (mo - 12) else (y, mo)

/-- The `while mo > 12` loop of `adjust_times_add`. -/
def monthsLoop (y mo : Int) : Int × Int := monthsLoopAux mo.toNat y mo

theorem monthsLoopAux_fuel (n₁ : Nat) : ∀ n₂ y mo, mo.toNat ≤ n₁ → mo.toNat ≤ n₂ →
    monthsLoopAux n₁ y mo = monthsLoopAux n₂ y mo := by
  induction n₁ with
  | zero =>
    intro n₂ y mo h1 _
    cases n₂ with
    | zero => rfl
    | succ m =>
      simp only [monthsLoopAux]
      rw [if_neg (by omega)]
  | succ n ih =>
    intro n₂ y mo _ h2
    cases n₂ with
    | zero =>
      simp only [monthsLoopAux]
      rw [if_neg (by omega)]
    | succ m =>
      simp only [monthsLoopAux]
      by_cases hc : mo > 12
      · rw [if_pos hc, if_pos hc]
        exact ih m (y + 1) (mo - 12) (by omega) (by omega)
      · rw [if_neg hc, if_neg hc]

/-- The defining step of the `while mo > 12` loop. -/
theorem monthsLoop_unfold (y mo : Int) :
    monthsLoop y mo =
      if mo > 12 then monthsLoop (y + 1) (mo - 12) else (y, mo) := by
  unfold monthsLoop
  by_cases hc : mo > 12
  · rw [if_pos hc]
    have h1 : mo.toNat = (mo.toNat - 1) + 1 := by omega
    rw [h1]
    simp only [monthsLoopAux]
    rw [if_pos hc]
    exact monthsLoopAux_fuel _ _ (y + 1) _ (by omega) (le_refl _)
  · rw [if_neg hc]
    rcases Nat.eq_zero_or_eq_succ_pred mo.toNat with h | h <;> rw [h] <;>
      simp only [monthsLoopAux]
    rw [if_neg hc]

/-- `adjust_times_add` from `src/util.rs`.  The `fix!` macro uses Rust's
truncating `%` (`Int.tmod` here); the division `(base - base % border) / border`
is exact, so Lean's `/` agrees with Rust's truncating division there. -/
def adjust_times_add (y mo d h mi s : Int) :
    Int × Int × Int × Int × Int × Int :=
  let mi := mi + (s - Int.tmod s 60) / 60
  let s := Int.tmod s 60
  let h := h + (mi - Int.tmod mi 60) / 60
  let mi := Int.tmod mi 60
  let d := d + (h - Int.tmod h 24) / 24
  let h := Int.tmod h 24
  let md := daysLoop y mo d
  let ym := monthsLoop y md.1
  (ym.1, ym.2, md.2, h, mi, s)

/-- `adjust_times_sub` from `src/util.rs`.  `(0 - x).abs()` equals `|x|`.
Note the constant divisors and spans: `32`/`31` for the day stage (not the
real month length) and `13`/`12` for the month stage. -/
def adjust_times_sub (y mo d h mi s : Int) :
    Int × Int × Int × Int × Int × Int :=
  let mi := if s < 0 then mi - (|s| / 60 + 1) else mi
  let s := if s < 0 then 60 - |s| else s
  let h := if mi < 0 then h - (|mi| / 60 + 1) else h
  let mi := if mi < 0 then 60 - |mi| else mi
  let d := if h < 0 then d - (|h| / 24 + 1) else d
  let h := if h < 0 then 24 - |h| else h
  let mo := if d < 1 then mo - (|d| / 32 + 1) else mo
  let d := if d < 1 then 31 - |d| else d
  let y := if mo < 1 then y - (|mo| / 13 + 1) else y
  let mo := if mo < 1 then 12 - |mo| else mo
  (y, mo, d, h, mi, s)

/-- Validity check of `chrono::NaiveDate::from_ymd_opt`. -/
def validYMD (y mo d : Int) : Bool :=
  1 ≤ mo && mo ≤ 12 && 1 ≤ d && d ≤ get_num_of_days_in_month y mo

/-- Validity check of `chrono::NaiveDate::and_hms_opt`. -/
def validHMS (h mi s : Int) : Bool :=
  0 ≤ h && h ≤ 23 && 0 ≤ mi && mi ≤ 59 && 0 ≤ s && s ≤ 59

/-- Model of `NaiveDate::from_ymd_opt(y, mo, d).and_then(|nd|
nd.and_hms_opt(h, mi, s))`. -/
def mkDateTime (y mo d h mi s : Int) : Option M :=
  if validYMD y mo d && validHMS h mi s then
    some ⟨y, mo, d, h, mi, s⟩
  else
    none

/-- A `NaiveDateTime` as chrono would hand it out: all fields in range. -/
def M.valid (m : M) : Bool :=
  validYMD m.y m.mo m.d && validHMS m.h m.mi m.s

/-- Model of the `Ord` instance of `chrono::NaiveDateTime` (chronological
order, i.e. lexicographic on the six fields for valid date-times). -/
def momentLt (a b : M) : Bool :=
  if a.y ≠ b.y then a.y < b.y
  else if a.mo ≠ b.mo then a.mo < b.mo
  else if a.d ≠ b.d then a.d < b.d
  else if a.h ≠ b.h then a.h < b.h
  else if a.mi ≠ b.mi then a.mi < b.mi
  else a.s < b.s

/-- `x as u32` on an `i64`: keep the low 32 bits, read unsigned. -/
def u32cast (x : Int) : Int := x % 4294967296

/-- `x as i32` on an `i64`: keep the low 32 bits, read signed. -/
def i32cast (x : Int) : Int := (x + 2147483648) % 4294967296 - 2147483648

/-- Number of internal nodes of an expression tree (every leaf contributes
zero, every composite node at least two). -/
def SA : TT → Nat
  | .amount _ _ => 0
  | .moment _ => 0
  | .add a b => SA a + SA b + 2
  | .sub a b => SA a + SA b + 2
  | .endOfYear e => SA e + 1
  | .endOfMonth e => SA e + 1
  | .endOfDay e => SA e + 1
  | .endOfHour e => SA e + 1
  | .endOfMinute e => SA e + 1

/-- Size of an expression tree, used as termination measure for the
mutually recursive evaluator. -/
def S (t : TT) : Nat := SA t + 1

@[simp] theorem SA_toTT (r : Reduced) : SA r.toTT = 0 := by
  cases r <;> rfl

/-- Position of a unit in the fineness precedence
Second > Minute > Hour > Day > Month > Year. -/
def idx : Unit6 → Nat
  | .second => 0
  | .minute => 1
  | .hour => 2
  | .day => 3
  | .month => 4
  | .year => 5

/-- Nominal number of seconds per unit (60 s/min, 60 min/hr, 24 hr/day,
30 day/month, 12 month/year), matching the constant products in the
`add_to_*` / `sub_from_*` functions of `src/timetype.rs`. -/
def secsPer : Unit6 → Int
  | .second => 1
  | .minute => 60
  | .hour => 3600
  | .day => 86400
  | .month => 2592000
  | .year => 31104000

/-- Conversion factor from unit `u` to a unit `w` at least as fine;
equals the constant by which the source multiplies a `u`-count when the
result is expressed in `w`. -/
def unitConv (u w : Unit6) : Int := secsPer u / secsPer w

/-- The finer of two units. -/
def finerUnit (u v : Unit6) : Unit6 := if idx u ≤ idx v then u else v

/-- The raw field update performed by the `TT::Seconds(a)` … `TT::Years(a)`
arms of `add_to_moment`: the count is added to the calendar field selected by
the unit, before the carry adjuster runs. -/
def applyRawAdd (u : Unit6) (a : Int) (m : M) :
    Int × Int × Int × Int × Int × Int :=
  match u with
  | .second => (m.y, m.mo, m.d, m.h, m.mi, m.s + a)
  | .minute => (m.y, m.mo, m.d, m.h, m.mi + a, m.s)
  | .hour => (m.y, m.mo, m.d, m.h + a, m.mi, m.s)
  | .day => (m.y, m.mo, m.d + a, m.h, m.mi, m.s)
  | .month => (m.y, m.mo + a, m.d, m.h, m.mi, m.s)
  | .year => (m.y + a, m.mo, m.d, m.h, m.mi, m.s)

/-- The raw field update performed by the amount arms of `sub_from_moment`. -/
def applyRawSub (u : Unit6) (a : Int) (m : M) :
    Int × Int × Int × Int × Int × Int :=
  match u with
  | .second => (m.y, m.mo, m.d, m.h, m.mi, m.s - a)
  | .minute => (m.y, m.mo, m.d, m.h, m.mi - a, m.s)
  | .hour => (m.y, m.mo, m.d, m.h - a, m.mi, m.s)
  | .day => (m.y, m.mo, m.d - a, m.h, m.mi, m.s)
  | .month => (m.y, m.mo - a, m.d, m.h, m.mi, m.s)
  | .year => (m.y - a, m.mo, m.d, m.h, m.mi, m.s)

/-- Rebuild a date-time from an adjusted tuple, shared tail of the amount
arms of `add_to_moment` and `sub_from_moment`.  The `OutOfBounds` payload
reproduces the source verbatim, including the slip of passing the hour where
the day belongs: `OutOfBounds(y as i32, mo as u32, h as u32, h as u32, mi as
u32, s as u32)`. -/
def momentFromTuple (r : Int × Int × Int × Int × Int × Int) :
    Except Error Reduced :=
  match mkDateTime r.1 r.2.1 r.2.2.1 r.2.2.2.1 r.2.2.2.2.1 r.2.2.2.2.2 with
  | some m2 => .ok (.moment m2)
  | none =>
      .error (.outOfBounds (i32cast r.1) (u32cast r.2.1)
        (u32cast r.2.2.2.1) (u32cast r.2.2.2.1)
        (u32cast r.2.2.2.2.1) (u32cast r.2.2.2.2.2))

/-- The amount arms of `add_to_moment`: raw field update, carry adjuster,
rebuild. -/
def momentPlusRaw (m : M) (u : Unit6) (a : Int) : Except Error Reduced :=
  let t := applyRawAdd u a m
  momentFromTuple (adjust_times_add t.1 t.2.1 t.2.2.1 t.2.2.2.1 t.2.2.2.2.1
    t.2.2.2.2.2)

/-- The amount arms of `sub_from_moment`: raw field update, carry adjuster,
rebuild. -/
def momentMinusRaw (m : M) (u : Unit6) (a : Int) : Except Error Reduced :=
  let t := applyRawSub u a m
  momentFromTuple (adjust_times_sub t.1 t.2.1 t.2.2.1 t.2.2.2.1 t.2.2.2.2.1
    t.2.2.2.2.2)

mutual

/-- `do_calculate` from `src/timetype.rs`.  The fall-through arm
`x => Ok(x)` of the source only sees the leaf variants, split here into the
`amount` and `moment` cases. -/
def do_calculate : TT → Except Error Reduced
  | .add a b => addT a b
  | .sub a b => subT a b
  | .endOfYear i => end_of_year i
  | .endOfMonth i => end_of_month i
  | .endOfDay i => end_of_day i
  | .endOfHour i => end_of_hour i
  | .endOfMinute i => end_of_minute i
  | .amount u x => .ok (.amount u x)
  | .moment m => .ok (.moment m)
termination_by t => 3 * S t
decreasing_by all_goals (simp [S, SA, SA_toTT]; try omega)

/-- `add` from `src/timetype.rs`, with the match arms in source order.  The
six `(TT::Seconds(a), other)` … `(TT::Years(a), other)` arms are the single
`amount` arm here; the nested re-evaluation calls `add(bx, …)` on the reduced
result of an inner reduction are the calls on `r.toTT`.  The final
`(other, TT::EndOfMinute(e))` arm is commented out as unreachable in the
source and indeed no case is left for it here. -/
def addT (a b : TT) : Except Error Reduced :=
  match a, b with
  | .moment mom, thing => add_to_moment mom thing
  | thing, .moment mom => .error (.cannotAdd thing (.moment mom))
  | .amount u x, other => add_to_amount u x other
  | .add x y, other =>
      match addT x y with
      | .error e => .error e
      | .ok r => addT r.toTT other
  | other, .add x y =>
      match addT x y with
      | .error e => .error e
      | .ok r => addT other r.toTT
  | .sub x y, other =>
      match subT x y with
      | .error e => .error e
      | .ok r => addT other r.toTT
  | other, .sub x y =>
      match do_calculate x with
      | .error e => .error e
      | .ok r1 =>
          match addT other r1.toTT with
          | .error e => .error e
          | .ok rx => subT rx.toTT y
  | .endOfYear e, other => .error (.cannotAdd other (.endOfYear e))
  | other, .endOfYear e => .error (.cannotAdd other (.endOfYear e))
  | .endOfMonth e, other => .error (.cannotAdd other (.endOfMonth e))
  | other, .endOfMonth e => .error (.cannotAdd other (.endOfMonth e))
  | .endOfDay e, other => .error (.cannotAdd other (.endOfDay e))
  | other, .endOfDay e => .error (.cannotAdd other (.endOfDay e))
  | .endOfHour e, other => .error (.cannotAdd other (.endOfHour e))
  | other, .endOfHour e => .error (.cannotAdd other (.endOfHour e))
  | .endOfMinute e, _other => .error (.cannotAdd _other (.endOfMinute e))
termination_by 3 * (S a + S b)
decreasing_by all_goals (simp [S, SA, SA_toTT]; try omega)

/-- `sub` from `src/timetype.rs`, match arms in source order.  Note the
`(other, TT::Addition(a, b))` arm of the source computes
`(other - calculate(a)) + b`, which is embedded verbatim. -/
def subT (a b : TT) : Except Error Reduced :=
  match a, b with
  | .moment mom, thing => sub_from_moment mom thing
  | .amount u x, other => sub_from_amount u x other
  | .sub x y, other =>
      match subT x y with
      | .error e => .error e
      | .ok r => subT r.toTT other
  | other, .sub x y =>
      match subT x y with
      | .error e => .error e
      | .ok r => subT other r.toTT
  | .add x y, other =>
      match addT x y with
      | .error e => .error e
      | .ok r => subT r.toTT other
  | other, .add x y =>
      match do_calculate x with
      | .error e => .error e
      | .ok r1 =>
          match subT other r1.toTT with
          | .error e => .error e
          | .ok rx => addT rx.toTT y
  | .endOfYear e, other => .error (.cannotSub other (.endOfYear e))
  | other, .endOfYear e => .error (.cannotSub other (.endOfYear e))
  | .endOfMonth e, other => .error (.cannotSub other (.endOfMonth e))
  | other, .endOfMonth e => .error (.cannotSub other (.endOfMonth e))
  | .endOfDay e, other => .error (.cannotSub other (.endOfDay e))
  | other, .endOfDay e => .error (.cannotSub other (.endOfDay e))
  | .endOfHour e, other => .error (.cannotSub other (.endOfHour e))
  | other, .endOfHour e => .error (.cannotSub other (.endOfHour e))
  | .endOfMinute e, _other => .error (.cannotSub _other (.endOfMinute e))
termination_by 3 * (S a + S b)
decreasing_by all_goals (simp [S, SA, SA_toTT]; try omega)

/-- The six functions `add_to_seconds` … `add_to_years` of `src/timetype.rs`,
merged into one function indexed by the unit.  On two amounts the source
expresses the result in the finer unit `w`, computing
`a * unitConv v w + amount * unitConv u w` (one of the two factors is `1`),
which reproduces each of the 36 source arms exactly. -/
def add_to_amount (u : Unit6) (amount : Int) (tt : TT) : Except Error Reduced :=
  match tt with
  | .amount v a =>
      let w := finerUnit u v
      .ok (.amount w (a * unitConv v w + amount * unitConv u w))
  | .moment m => .error (.cannotAdd (.amount u amount) (.moment m))
  | .endOfYear e => .error (.cannotAdd (.amount u amount) (.endOfYear e))
  | .endOfMonth e => .error (.cannotAdd (.amount u amount) (.endOfMonth e))
  | .endOfDay e => .error (.cannotAdd (.amount u amount) (.endOfDay e))
  | .endOfHour e => .error (.cannotAdd (.amount u amount) (.endOfHour e))
  | .endOfMinute e => .error (.cannotAdd (.amount u amount) (.endOfMinute e))
  | .add b c =>
      match addT b c with
      | .error e => .error e
      | .ok r => add_to_amount u amount r.toTT
  | .sub b c =>
      match subT b c with
      | .error e => .error e
      | .ok r => add_to_amount u amount r.toTT
termination_by 3 * S tt + 1
decreasing_by all_goals (simp [S, SA, SA_toTT]; try omega)

/-- The six functions `sub_from_seconds` … `sub_from_years`, merged as in
`add_to_amount`; on two amounts the result in the finer unit `w` is
`amount * unitConv u w - a * unitConv v w`. -/
def sub_from_amount (u : Unit6) (amount : Int) (tt : TT) : Except Error Reduced :=
  match tt with
  | .amount v a =>
      let w := finerUnit u v
      .ok (.amount w (amount * unitConv u w - a * unitConv v w))
  | .moment m => .error (.cannotSub (.amount u amount) (.moment m))
  | .endOfYear e => .error (.cannotSub (.amount u amount) (.endOfYear e))
  | .endOfMonth e => .error (.cannotSub (.amount u amount) (.endOfMonth e))
  | .endOfDay e => .error (.cannotSub (.amount u amount) (.endOfDay e))
  | .endOfHour e => .error (.cannotSub (.amount u amount) (.endOfHour e))
  | .endOfMinute e => .error (.cannotSub (.amount u amount) (.endOfMinute e))
  | .add b c =>
      match addT b c with
      | .error e => .error e
      | .ok r => sub_from_amount u amount r.toTT
  | .sub b c =>
      match subT b c with
      | .error e => .error e
      | .ok r => sub_from_amount u amount r.toTT
termination_by 3 * S tt + 1
decreasing_by all_goals (simp [S, SA, SA_toTT]; try omega)

/-- `add_to_moment` from `src/timetype.rs`. -/
def add_to_moment (mom : M) (tt : TT) : Except Error Reduced :=
  match tt with
  | .amount u a => momentPlusRaw mom u a
  | .moment m => .error (.cannotAdd (.moment mom) (.moment m))
  | .endOfYear e => .error (.cannotAdd (.moment mom) (.endOfYear e))
  | .endOfMonth e => .error (.cannotAdd (.moment mom) (.endOfMonth e))
  | .endOfDay e => .error (.cannotAdd (.moment mom) (.endOfDay e))
  | .endOfHour e => .error (.cannotAdd (.moment mom) (.endOfHour e))
  | .endOfMinute e => .error (.cannotAdd (.moment mom) (.endOfMinute e))
  | .add a b =>
      match addT a b with
      | .error e => .error e
      | .ok r => add_to_moment mom r.toTT
  | .sub a b =>
      match subT a b with
      | .error e => .error e
      | .ok r => add_to_moment mom r.toTT
termination_by 3 * S tt + 1
decreasing_by all_goals (simp [S, SA, SA_toTT]; try omega)

/-- `sub_from_moment` from `src/timetype.rs`. -/
def sub_from_moment (mom : M) (tt : TT) : Except Error Reduced :=
  match tt with
  | .amount u a => momentMinusRaw mom u a
  | .moment m => .error (.cannotSub (.moment mom) (.moment m))
  | .endOfYear e => .error (.cannotSub (.moment mom) (.endOfYear e))
  | .endOfMonth e => .error (.cannotSub (.moment mom) (.endOfMonth e))
  | .endOfDay e => .error (.cannotSub (.moment mom) (.endOfDay e))
  | .endOfHour e => .error (.cannotSub (.moment mom) (.endOfHour e))
  | .endOfMinute e => .error (.cannotSub (.moment mom) (.endOfMinute e))
  | .add a b =>
      match addT a b with
      | .error e => .error e
      | .ok r => sub_from_moment mom r.toTT
  | .sub a b =>
      match subT a b with
      | .error e => .error e
      | .ok r => sub_from_moment mom r.toTT
termination_by 3 * S tt + 1
decreasing_by all_goals (simp [S, SA, SA_toTT]; try omega)

/-- `end_of_year` from `src/timetype.rs`.  The source matches the evaluated
inner value; since evaluation only returns leaf variants (see `Reduced`), the
amount arms produce the error and the `EndOf*` collapse arms of the source are
unreachable.  `NaiveDate::from_ymd(y, 12, 31).and_hms(0, 0, 0)` is modelled by
`mkDateTime`; its `none` branch reproduces the source's `OutOfBounds`. -/
def end_of_year (tt : TT) : Except Error Reduced :=
  match do_calculate tt with
  | .error e => .error e
  | .ok (.amount u x) => .error (.cannotCalculateEndOfYearOn (.amount u x))
  | .ok (.moment m) =>
      match mkDateTime m.y 12 31 0 0 0 with
      | some m2 => .ok (.moment m2)
      | none => .error (.outOfBounds m.y 12 31 0 0 0)
termination_by 3 * S tt + 1
decreasing_by all_goals (simp [S, SA, SA_toTT]; try omega)

/-- `end_of_month` from `src/timetype.rs`: snap to the last real day of the
moment's month at 00:00:00. -/
def end_of_month (tt : TT) : Except Error Reduced :=
  match do_calculate tt with
  | .error e => .error e
  | .ok (.amount u x) => .error (.cannotCalculateEndOfMonthOn (.amount u x))
  | .ok (.moment m) =>
      let last_day := get_num_of_days_in_month m.y m.mo
      match mkDateTime m.y m.mo last_day 0 0 0 with
      | some m2 => .ok (.moment m2)
      | none => .error (.outOfBounds m.y m.mo last_day 0 0 0)
termination_by 3 * S tt + 1
decreasing_by all_goals (simp [S, SA, SA_toTT]; try omega)

/-- `end_of_day`: snap to 23:59:59 of the same date.  The source reuses
`Error::CannotCalculateEndOfMonthOn` for the non-moment case (a copy-paste
slip preserved here). -/
def end_of_day (tt : TT) : Except Error Reduced :=
  match do_calculate tt with
  | .error e => .error e
  | .ok (.amount u x) => .error (.cannotCalculateEndOfMonthOn (.amount u x))
  | .ok (.moment m) =>
      match mkDateTime m.y m.mo m.d 23 59 59 with
      | some m2 => .ok (.moment m2)
      | none => .error (.outOfBounds m.y m.mo m.d 23 59 59)
termination_by 3 * S tt + 1
decreasing_by all_goals (simp [S, SA, SA_toTT]; try omega)

/-- `end_of_hour`: snap to minute 59, second 59 of the same hour (also using
`CannotCalculateEndOfMonthOn` for the non-moment case). -/
def end_of_hour (tt : TT) : Except Error Reduced :=
  match do_calculate tt with
  | .error e => .error e
  | .ok (.amount u x) => .error (.cannotCalculateEndOfMonthOn (.amount u x))
  | .ok (.moment m) =>
      match mkDateTime m.y m.mo m.d m.h 59 59 with
      | some m2 => .ok (.moment m2)
      | none => .error (.outOfBounds m.y m.mo m.d m.h 59 59)
termination_by 3 * S tt + 1
decreasing_by all_goals (simp [S, SA, SA_toTT]; try omega)

/-- `end_of_minute`: snap to second 59 of the same minute (also using
`CannotCalculateEndOfMonthOn` for the non-moment case). -/
def end_of_minute (tt : TT) : Except Error Reduced :=
  match do_calculate tt with
  | .error e => .error e
  | .ok (.amount u x) => .error (.cannotCalculateEndOfMonthOn (.amount u x))
  | .ok (.moment m) =>
      match mkDateTime m.y m.mo m.d m.h m.mi 59 with
      | some m2 => .ok (.moment m2)
      | none => .error (.outOfBounds m.y m.mo m.d m.h m.mi 59)
termination_by 3 * S tt + 1
decreasing_by all_goals (simp [S, SA, SA_toTT]; try omega)

end

/-- `TimeType::calculate` from `src/timetype.rs`. -/
def calculate (t : TT) : Except Error Reduced := do_calculate t

theorem do_calculate_moment (m : M) :
    do_calculate (.moment m) = .ok (.moment m) := by
  simp [do_calculate]

theorem do_calculate_amount (u : Unit6) (x : Int) :
    do_calculate (.amount u x) = .ok (.amount u x) := by
  simp [do_calculate]

/-- `TimeType::is_a_amount`. -/
def TT.is_a_amount : TT → Bool
  | .amount _ _ => true
  | _ => false

/-- `TimeType::is_moment`. -/
def TT.is_moment : TT → Bool
  | .moment _ => true
  | _ => false

/-- `TimeType::name` from `src/timetype.rs`. -/
def TT.name : TT → String
  | .add _ _ => "Addition"
  | .amount .day _ => "Days"
  | .endOfDay _ => "EndOfDay"
  | .endOfHour _ => "EndOfHour"
  | .endOfMinute _ => "EndOfMinute"
  | .endOfMonth _ => "EndOfMonth"
  | .endOfYear _ => "EndOfYear"
  | .amount .hour _ => "Hours"
  | .amount .minute _ => "Minutes"
  | .moment _ => "Moment"
  | .amount .month _ => "Months"
  | .amount .second _ => "Seconds"
  | .sub _ _ => "Subtraction"
  | .amount .year _ => "Years"

/-- The recurrence iterator `Iter` of `src/iter.rs`: a base expression and an
increment expression. -/
structure Iter where
  base : TT
  increment : TT
deriving DecidableEq

/-- `Iter::build`: reject a non-amount increment, else wrap the base moment. -/
def Iter.build (base : M) (inc : TT) : Except Error Iter :=
  if !inc.is_a_amount then
    .error (.argumentErrorNotAnAmount inc)
  else
    .ok { base := .moment base, increment := inc }

/-- `Iter::skip`: `self.base += self.increment` makes the base an `Addition`
node, then `recalculate` replaces it by the evaluated value on success and
leaves the `Addition` node in place on failure. -/
def Iter.skip (it : Iter) : Except Error Unit × Iter :=
  let b := TT.add it.base it.increment
  match calculate b with
  | .ok r => (.ok Unit.unit, { it with base := r.toTT })
  | .error e => (.error e, { it with base := b })

/-- `Iterator::next` for `Iter`: always `Some`; perform `skip` and yield the
(new) base.  The iterator never signals end-of-sequence. -/
def Iter.next (it : Iter) : Except Error TT × Iter :=
  match it.skip with
  | (.ok _, it2) => (.ok it2.base, it2)
  | (.error e, it2) => (.error e, it2)

/-- The item produced by the `k`-th pull (0-indexed) on `Iter`, together with
the state afterwards. -/
def Iter.pullAt (it : Iter) : Nat → Except Error TT × Iter
  | 0 => it.next
  | k + 1 => (it.next).2.pullAt k

/-- `UntilIter` of `src/iter.rs`, instantiated (as in
`into_user_iterator`) with `Iter` as the inner iterator; the inner `Iter`
never returns `None`, so the source's `None => None` arm has no counterpart
here.  On each pull: evaluate the inner item, propagate errors, error on a
non-moment value, stop once the value is not strictly below the bound, else
yield it. -/
structure UntilIter where
  inner : Iter
  bound : M
deriving DecidableEq

def UntilIter.next (u : UntilIter) : Option (Except Error TT) × UntilIter :=
  match u.inner.next with
  | (.error e, it2) => (some (.error e), { u with inner := it2 })
  | (.ok tt, it2) =>
      match calculate tt with
      | .error e => (some (.error e), { u with inner := it2 })
      | .ok (.moment m) =>
          if momentLt m u.bound then
            (some (.ok (TT.moment m)), { u with inner := it2 })
          else
            (none, { u with inner := it2 })
      | .ok (.amount v x) =>
          (some (.error (.argumentErrorNotAMoment (TT.amount v x).name)),
            { u with inner := it2 })

/-- The items produced by the first `k` pulls on an `UntilIter`. -/
def UntilIter.pulls (u : UntilIter) : Nat → List (Option (Except Error TT))
  | 0 => []
  | k + 1 =>
      let r := u.next
      r.1 :: r.2.pulls k

/-- `TimesIter` of `src/iter.rs`, generic in the inner iterator state `σ`
with its `next` function passed explicitly: stop when the count reaches
`times`, else increment the count and pull the inner iterator. -/
structure TimesIter (σ : Type) where
  inner : σ
  times : Int
  count : Int
deriving DecidableEq

def TimesIter.next {σ} (innerNext : σ → Option (Except Error TT) × σ)
    (t : TimesIter σ) : Option (Except Error TT) × TimesIter σ :=
  if t.times == t.count then
    (none, t)
  else
    let r := innerNext t.inner
    (r.1, { inner := r.2, times := t.times, count := t.count + 1 })

/-- State of a `TimesIter` after `k` pulls. -/
def TimesIter.stateAfter {σ} (innerNext : σ → Option (Except Error TT) × σ)
    (t : TimesIter σ) : Nat → TimesIter σ
  | 0 => t
  | k + 1 => TimesIter.stateAfter innerNext (TimesIter.next innerNext t).2 k

/-!
The parser of `src/parser/timetype.rs` and `src/parser/iterator.rs`.  nom
parsers over `&[u8]` are modelled as functions `List Char → Option (rest ×
value)`; `none` stands for any nom failure (`Err` and `Incomplete`
collapsed, so nom's `complete` combinator is the identity here and is not
written out).
-/

/-- A nom parser over the remaining input. -/
abbrev P (α : Type) : Type := List Char → Option (List Char × α)

/-- nom `tag`. -/
def ptag (s : List Char) : P (List Char) := fun i =>
  if s.isPrefixOf i then some (i.drop s.length, s) else none

/-- nom `map`. -/
def pmap {α β} (p : P α) (f : α → β) : P β := fun i =>
  match p i with
  | some (r, a) => some (r, f a)
  | none => none

/-- nom `alt` on two branches; `alt` on more branches is written as nested
`palt2` in source order. -/
def palt2 {α} (p q : P α) : P α := fun i =>
  match p i with
  | some x => some x
  | none => q i

/-- nom `tuple` on two parsers; longer tuples are nested. -/
def pseq {α β} (p : P α) (q : P β) : P (α × β) := fun i =>
  match p i with
  | some (r, a) =>
      match q r with
      | some (r2, b) => some (r2, (a, b))
      | none => none
  | none => none

/-- nom `opt(complete(...))`: never fails, consumes nothing on failure. -/
def popt {α} (p : P α) : P (Option α) := fun i =>
  match p i with
  | some (r, a) => some (r, some a)
  | none => some (i, none)

def isSpaceChar (c : Char) : Bool :=
  c == ' ' || c == '\t' || c == '\n' || c == '\r'

def isDigitChar (c : Char) : Bool :=
  '0' ≤ c && c ≤ '9'

/-- nom `multispace0`. -/
def multispace0 : P Unit := fun i =>
  some (i.dropWhile isSpaceChar, Unit.unit)

/-- nom `multispace1`. -/
def multispace1 : P Unit := fun i =>
  match i with
  | [] => none
  | c :: _ => if isSpaceChar c then some (i.dropWhile isSpaceChar, Unit.unit) else none

/-- nom `digit1`. -/
def digit1 : P (List Char) := fun i =>
  let ds := i.takeWhile isDigitChar
  if ds.isEmpty then none else some (i.drop ds.length, ds)

def digitsToNat (ds : List Char) : Nat :=
  List.foldl (fun acc c => acc * 10 + (c.toNat - 48)) 0 ds

/-- `integer` from `src/parser/timetype.rs`: digits delimited by optional
whitespace, parsed as a (non-negative) `i64`; the `i64` overflow failure of
`str::parse` is not modelled. -/
def integer : P Int :=
  pmap (pseq multispace0 (pseq digit1 multispace0))
    (fun x => Int.ofNat (digitsToNat x.2.1))

/-- The parser-level `Unit` enum of `src/parser/timetype.rs` (it has a `Week`
variant, unlike the evaluator units). -/
inductive Unit7
  | second
  | minute
  | hour
  | day
  | week
  | month
  | year
deriving DecidableEq

/-- `unit_parser` from `src/parser/timetype.rs`; the alternative order is the
source order (longer tags first within each unit: the source comments
`WARNING: Order is important here. Long tags first, shorter tags later`). -/
def unitParser : P Unit7 :=
  palt2
    (pmap
      (palt2 (ptag ("seconds".toList))
        (palt2 (ptag ("second".toList))
          (palt2 (ptag ("secs".toList))
            (palt2 (ptag ("sec".toList)) (ptag ("s".toList))))))
      (fun _ => Unit7.second))
    (palt2
      (pmap
        (palt2 (ptag ("minutes".toList))
          (palt2 (ptag ("minute".toList))
            (palt2 (ptag ("mins".toList)) (ptag ("min".toList)))))
        (fun _ => Unit7.minute))
      (palt2
        (pmap
          (palt2 (ptag ("hours".toList))
            (palt2 (ptag ("hour".toList))
              (palt2 (ptag ("hrs".toList)) (ptag ("hr".toList)))))
          (fun _ => Unit7.hour))
        (palt2
          (pmap
            (palt2 (ptag ("days".toList))
              (palt2 (ptag ("day".toList)) (ptag ("d".toList))))
            (fun _ => Unit7.day))
          (palt2
            (pmap
              (palt2 (ptag ("weeks".toList))
                (palt2 (ptag ("week".toList)) (ptag ("w".toList))))
              (fun _ => Unit7.week))
            (palt2
              (pmap (palt2 (ptag ("months".toList)) (ptag ("month".toList)))
                (fun _ => Unit7.month))
              (pmap
                (palt2 (ptag ("years".toList))
                  (palt2 (ptag ("year".toList)) (ptag ("yrs".toList))))
                (fun _ => Unit7.year)))))))

/-- The parser-level `Operator` enum. -/
inductive OpSyn
  | plus
  | minus
deriving DecidableEq

/-- `operator_parser`. -/
def operatorParser : P OpSyn :=
  palt2 (pmap (ptag ("+".toList)) (fun _ => OpSyn.plus))
    (pmap (ptag ("-".toList)) (fun _ => OpSyn.minus))

/-- The `UnitAlias` enum. -/
inductive UnitAlias
  | secondly
  | minutely
  | hourly
  | daily
  | weekly
  | monthly
  | yearly
deriving DecidableEq

/-- `unit_alias`. -/
def unit_alias : P UnitAlias :=
  palt2 (pmap (ptag ("secondly".toList)) (fun _ => UnitAlias.secondly))
    (palt2 (pmap (ptag ("minutely".toList)) (fun _ => UnitAlias.minutely))
      (palt2 (pmap (ptag ("hourly".toList)) (fun _ => UnitAlias.hourly))
        (palt2 (pmap (ptag ("daily".toList)) (fun _ => UnitAlias.daily))
          (palt2 (pmap (ptag ("weekly".toList)) (fun _ => UnitAlias.weekly))
            (palt2 (pmap (ptag ("monthly".toList)) (fun _ => UnitAlias.monthly))
              (pmap (ptag ("yearly".toList)) (fun _ => UnitAlias.yearly)))))))

/-- `impl From<UnitAlias> for Unit`. -/
def UnitAlias.toUnit : UnitAlias → Unit7
  | .secondly => .second
  | .minutely => .minute
  | .hourly => .hour
  | .daily => .day
  | .weekly => .week
  | .monthly => .month
  | .yearly => .year

/-- The parser-level `Amount(i64, Unit)`. -/
structure AmountSyn where
  n : Int
  u : Unit7
deriving DecidableEq

/-- `amount_parser`: numeric-prefixed amount first, then a bare alias meaning
`1 <unit>`. -/
def amountParser : P AmountSyn :=
  palt2 (pmap (pseq integer unitParser) (fun x => AmountSyn.mk x.1 x.2))
    (pmap unit_alias (fun a => AmountSyn.mk 1 a.toUnit))

/-- The parser-level `AmountExpr`: an amount with an optional
`(operator, amount-expr)` tail.  The source field `next: Option<(Operator,
Box<AmountExpr>)>` is represented isomorphically by the two constructors
`last` (tail absent) and `cons` (tail present). -/
inductive AmountExpr
  | last : AmountSyn → AmountExpr
  | cons : AmountSyn → OpSyn → AmountExpr → AmountExpr
deriving DecidableEq

/-- Build an `AmountExpr` from the parsed amount and optional tail. -/
def mkAmountExpr (a : AmountSyn) : Option (OpSyn × AmountExpr) → AmountExpr
  | none => .last a
  | some (op, rest) => .cons a op rest

mutual

/-- `amount_expr`.  The source recursion consumes at least one input
character per step; here the depth is bounded by an explicit fuel (entry
points pass `input.length + 1`, which is never exhausted). -/
def amountExprP : Nat → P AmountExpr
  | 0 => fun _ => none
  | n + 1 =>
      pmap (pseq amountParser (pseq multispace0 (popt (amountExprNextP n))))
        (fun x => mkAmountExpr x.1 x.2.2)

/-- `amount_expr_next`. -/
def amountExprNextP : Nat → P (OpSyn × AmountExpr)
  | 0 => fun _ => none
  | n + 1 =>
      pmap (pseq operatorParser (pseq multispace0 (amountExprP n)))
        (fun x => (x.1, x.2.2))

end

/-- The parser-level `ExactDate`.  Only the `YMD` form of the external
`iso8601` crate's dates is modelled (week-dates and ordinal dates are not). -/
inductive ExactDateSyn
  | today
  | yesterday
  | tomorrow
  | isoDate : Int → Int → Int → ExactDateSyn
  | isoDateTime : Int → Int → Int → Int → Int → Int → ExactDateSyn
deriving DecidableEq

/-- Exactly `n` digits, as a number. -/
def exactlyDigits (n : Nat) : P Nat := fun i =>
  let ds := i.take n
  if ds.length == n && ds.all isDigitChar then
    some (i.drop n, digitsToNat ds)
  else
    none

/-- Model of the external `iso8601` crate's `parse_date`, restricted to the
calendar form `YYYY-MM-DD` exercised by this development. -/
def parseDateYMD : P (Int × Int × Int) :=
  pmap
    (pseq (exactlyDigits 4)
      (pseq (ptag ("-".toList))
        (pseq (exactlyDigits 2) (pseq (ptag ("-".toList)) (exactlyDigits 2)))))
    (fun x =>
      (Int.ofNat x.1, Int.ofNat x.2.2.1, Int.ofNat x.2.2.2.2))

/-- Model of the external `iso8601` crate's `parse_datetime`, restricted to
the form `YYYY-MM-DDTHH:MM:SS`. -/
def parseDatetimeYMD : P (Int × Int × Int × Int × Int × Int) :=
  pmap
    (pseq parseDateYMD
      (pseq (ptag ("T".toList))
        (pseq (exactlyDigits 2)
          (pseq (ptag (":".toList))
            (pseq (exactlyDigits 2) (pseq (ptag (":".toList)) (exactlyDigits 2)))))))
    (fun x =>
      (x.1.1, x.1.2.1, x.1.2.2, Int.ofNat x.2.2.1,
        Int.ofNat x.2.2.2.2.1, Int.ofNat x.2.2.2.2.2.2))

/-- `exact_date_parser`; the source comments that the order is relevant:
the date-time alternative must come before the bare date. -/
def exactDateParser : P ExactDateSyn :=
  palt2 (pmap (ptag ("today".toList)) (fun _ => ExactDateSyn.today))
    (palt2 (pmap (ptag ("yesterday".toList)) (fun _ => ExactDateSyn.yesterday))
      (palt2 (pmap (ptag ("tomorrow".toList)) (fun _ => ExactDateSyn.tomorrow))
        (palt2
          (pmap parseDatetimeYMD
            (fun x =>
              ExactDateSyn.isoDateTime x.1 x.2.1 x.2.2.1 x.2.2.2.1 x.2.2.2.2.1
                x.2.2.2.2.2))
          (pmap parseDateYMD
            (fun x => ExactDateSyn.isoDate x.1 x.2.1 x.2.2)))))

/-- The parser-level `Date`: an exact date with an optional
`(operator, amount-expr)` tail separated by whitespace. -/
structure DateSyn where
  ed : ExactDateSyn
  tail : Option (OpSyn × AmountExpr)
deriving DecidableEq

/-- `date` from `src/parser/timetype.rs` (fuel as in `amountExprP`). -/
def dateP (fuel : Nat) : P DateSyn :=
  pmap
    (pseq exactDateParser
      (popt
        (pmap
          (pseq multispace1
            (pseq operatorParser (pseq multispace1 (amountExprP fuel))))
          (fun x => (x.2.1, x.2.2.2)))))
    (fun x => DateSyn.mk x.1 x.2)

/-- The `Iterspec` enum of `src/parser/iterator.rs`. -/
inductive IterspecSyn
  | secondly
  | minutely
  | hourly
  | daily
  | weekly
  | monthly
  | yearly
  | every : Int → Unit7 → IterspecSyn
deriving DecidableEq

/-- `iter_spec` from `src/parser/iterator.rs`, alternatives in source
order. -/
def iterSpec : P IterspecSyn :=
  palt2 (pmap (ptag ("secondly".toList)) (fun _ => IterspecSyn.secondly))
    (palt2 (pmap (ptag ("minutely".toList)) (fun _ => IterspecSyn.minutely))
      (palt2 (pmap (ptag ("hourly".toList)) (fun _ => IterspecSyn.hourly))
        (palt2 (pmap (ptag ("daily".toList)) (fun _ => IterspecSyn.daily))
          (palt2 (pmap (ptag ("weekly".toList)) (fun _ => IterspecSyn.weekly))
            (palt2 (pmap (ptag ("monthly".toList)) (fun _ => IterspecSyn.monthly))
              (palt2 (pmap (ptag ("yearly".toList)) (fun _ => IterspecSyn.yearly))
                (pmap (pseq (ptag ("every".toList)) (pseq integer unitParser))
                  (fun x => IterspecSyn.every x.2.1 x.2.2))))))))

/-- The `UntilSpec` enum. -/
inductive UntilSpecSyn
  | exact : ExactDateSyn → UntilSpecSyn
  | times : Int → UntilSpecSyn
deriving DecidableEq

/-- `until_spec` from `src/parser/iterator.rs`. -/
def untilSpec : P UntilSpecSyn :=
  palt2
    (pmap (pseq (ptag ("until".toList)) (pseq multispace1 exactDateParser))
      (fun x => UntilSpecSyn.exact x.2.2))
    (pmap (pseq integer (pseq multispace1 (ptag ("times".toList))))
      (fun x => UntilSpecSyn.times x.1))

/-- The parser-level `Iterator` struct. -/
structure IteratorSyn where
  dt : DateSyn
  spec : IterspecSyn
  ub : Option UntilSpecSyn
deriving DecidableEq

/-- `iterator` from `src/parser/iterator.rs`. -/
def iteratorP (fuel : Nat) : P IteratorSyn :=
  pmap
    (pseq multispace0
      (pseq (dateP fuel)
        (pseq multispace0 (pseq iterSpec (pseq multispace0 (popt untilSpec))))))
    (fun x => IteratorSyn.mk x.2.1 x.2.2.2.1 x.2.2.2.2.2)

/-!
Lowering of the grammar AST into `TT` (the `IntoTimeType` impls of
`src/parser/timetype.rs` and the `unit_to_amount` closure of
`src/parser/iterator.rs`, which agree).
-/

/-- Unit to amount: `Week` lowers to `Days(count * 7)` (via
`TimeType::weeks`). -/
def unitToAmount (i : Int) : Unit7 → TT
  | .second => .amount .second i
  | .minute => .amount .minute i
  | .hour => .amount .hour i
  | .day => .amount .day i
  | .week => .amount .day (i * 7)
  | .month => .amount .month i
  | .year => .amount .year i

/-- `impl IntoTimeType for AmountExpr`: fold the right-leaning chain into
`Addition`/`Subtraction` nodes. -/
def AmountExpr.toTT : AmountExpr → TT
  | .last a => unitToAmount a.n a.u
  | .cons a .plus rest => .add (unitToAmount a.n a.u) rest.toTT
  | .cons a .minus rest => .sub (unitToAmount a.n a.u) rest.toTT

/-- `impl IntoTimeType for ExactDate`.  `TimeType::today()` reads the ambient
clock, modelled by the explicit `now` argument; `Yesterday`/`Tomorrow` build
`today ∓ Days(1)` as unevaluated nodes. -/
def ExactDateSyn.toTT (now : M) : ExactDateSyn → Except Error TT
  | .today => .ok (.moment now)
  | .yesterday => .ok (.sub (.moment now) (.amount .day 1))
  | .tomorrow => .ok (.add (.moment now) (.amount .day 1))
  | .isoDate y mo d =>
      match mkDateTime y mo d 0 0 0 with
      | some m => .ok (.moment m)
      | none => .error (.outOfBounds y mo d 0 0 0)
  | .isoDateTime y mo d h mi s =>
      match mkDateTime y mo d h mi s with
      | some m => .ok (.moment m)
      | none => .error (.outOfBounds y mo d h mi s)

/-- `impl IntoTimeType for Date`. -/
def DateSyn.toTT (now : M) (dt : DateSyn) : Except Error TT :=
  match dt.ed.toTT now with
  | .error e => .error e
  | .ok base =>
      match dt.tail with
      | some (.plus, ae) => .ok (.add base ae.toTT)
      | some (.minus, ae) => .ok (.sub base ae.toTT)
      | none => .ok base

/-- The `UserIterator` enum of `src/parser/iterator.rs`, instantiated at the
inner iterator `Iter` as `into_user_iterator` produces it. -/
inductive UserIterator
  | iter : Iter → UserIterator
  | timesI : TimesIter Iter → UserIterator
  | untilI : UntilIter → UserIterator
deriving DecidableEq

/-- `Iterator::next` for `UserIterator`: dispatch to the wrapped iterator
(the plain `Iter` always yields an item). -/
def UserIterator.next : UserIterator → Option (Except Error TT) × UserIterator
  | .iter i =>
      let r := i.next
      (some r.1, .iter r.2)
  | .timesI t =>
      let r := TimesIter.next (fun it => let q := Iter.next it; (some q.1, q.2)) t
      (r.1, .timesI r.2)
  | .untilI u =>
      let r := u.next
      (r.1, .untilI r.2)

/-- Items produced by the first `k` pulls of a `UserIterator`. -/
def UserIterator.pulls : UserIterator → Nat → List (Option (Except Error TT))
  | _, 0 => []
  | u, k + 1 =>
      let r := u.next
      r.1 :: r.2.pulls k

/-- The `recur` computation of `into_user_iterator`. -/
def iterspecToRecur : IterspecSyn → TT
  | .every i u => unitToAmount i u
  | .secondly => unitToAmount 1 .second
  | .minutely => unitToAmount 1 .minute
  | .hourly => unitToAmount 1 .hour
  | .daily => unitToAmount 1 .day
  | .weekly => unitToAmount 1 .week
  | .monthly => unitToAmount 1 .month
  | .yearly => unitToAmount 1 .year

/-- The `into_ndt` closure of `into_user_iterator`: evaluate and extract the
moment, else `NotADateInsideIterator`. -/
def into_ndt (e : TT) : Except Error M :=
  match calculate e with
  | .error er => .error er
  | .ok (.moment m) => .ok m
  | .ok (.amount _ _) => .error .notADateInsideIterator

/-- `Iterator::into_user_iterator` from `src/parser/iterator.rs`. -/
def IteratorSyn.into_user_iterator (now : M) (it : IteratorSyn) :
    Except Error UserIterator :=
  let recur := iterspecToRecur it.spec
  match it.ub with
  | some (.exact e) =>
      match it.dt.toTT now with
      | .error er => .error er
      | .ok bt =>
          match into_ndt bt with
          | .error er => .error er
          | .ok base =>
              match e.toTT now with
              | .error er => .error er
              | .ok et =>
                  match into_ndt et with
                  | .error er => .error er
                  | .ok bound =>
                      match Iter.build base recur with
                      | .error er => .error er
                      | .ok i => .ok (.untilI (UntilIter.mk i bound))
  | some (.times i) =>
      match it.dt.toTT now with
      | .error er => .error er
      | .ok bt =>
          match into_ndt bt with
          | .error er => .error er
          | .ok base =>
              match Iter.build base recur with
              | .error er => .error er
              | .ok it0 => .ok (.timesI (TimesIter.mk it0 i 0))
  | none =>
      match it.dt.toTT now with
      | .error er => .error er
      | .ok bt =>
          match into_ndt bt with
          | .error er => .error er
          | .ok base =>
              match Iter.build base recur with
              | .error er => .error er
              | .ok it0 => .ok (.iter it0)

/-! General lemmas about the embedded functions. -/

theorem calculate_moment (m : M) : calculate (.moment m) = .ok (.moment m) := by
  simp [calculate, do_calculate]

theorem calc_add (a b : TT) : calculate (.add a b) = addT a b := by
  simp [calculate, do_calculate]

theorem calc_sub (a b : TT) : calculate (.sub a b) = subT a b := by
  simp [calculate, do_calculate]

theorem mkDateTime_some {y mo d h mi s : Int} {m2 : M}
    (hm : mkDateTime y mo d h mi s = some m2) : m2 = M.mk y mo d h mi s := by
  unfold mkDateTime at hm
  split at hm
  · exact (Option.some_inj.mp hm).symm
  · cases hm

theorem finerUnit_of_le {u v : Unit6} (h : idx u ≤ idx v) : finerUnit u v = u := by
  simp [finerUnit, h]

theorem finerUnit_of_gt {u v : Unit6} (h : idx v < idx u) : finerUnit u v = v := by
  simp [finerUnit, Nat.not_le.mpr h]

theorem unitConv_self (u : Unit6) : unitConv u u = 1 := by
  cases u <;> rfl

theorem daysLoop_exit {y mo d : Int} (h : ¬ d > get_num_of_days_in_month y mo) :
    daysLoop y mo d = (mo, d) := by
  rw [daysLoop_unfold, if_neg h]

theorem monthsLoop_exit {y mo : Int} (h : ¬ mo > 12) :
    monthsLoop y mo = (y, mo) := by
  rw [monthsLoop_unfold, if_neg h]

/-- On an already-valid tuple the carry adjuster for addition is the
identity. -/
theorem adjust_times_add_of_valid (y mo d h mi s : Int)
    (hmo2 : mo ≤ 12) (hd2 : d ≤ get_num_of_days_in_month y mo)
    (hh1 : 0 ≤ h) (hh2 : h ≤ 23) (hmi1 : 0 ≤ mi) (hmi2 : mi ≤ 59)
    (hs1 : 0 ≤ s) (hs2 : s ≤ 59) :
    adjust_times_add y mo d h mi s = (y, mo, d, h, mi, s) := by
  simp only [adjust_times_add]
  rw [Int.tmod_eq_of_lt hs1 (by omega)]
  have e1 : mi + (s - s) / 60 = mi := by omega
  rw [e1, Int.tmod_eq_of_lt hmi1 (by omega)]
  have e2 : h + (mi - mi) / 60 = h := by omega
  rw [e2, Int.tmod_eq_of_lt hh1 (by omega)]
  have e3 : d + (h - h) / 24 = d := by omega
  rw [e3, daysLoop_exit (by omega), monthsLoop_exit (by omega)]

/-- On an already-valid tuple the carry adjuster for subtraction is the
identity. -/
theorem adjust_times_sub_of_valid (y mo d h mi s : Int)
    (hmo1 : 1 ≤ mo) (hd1 : 1 ≤ d) (hh1 : 0 ≤ h) (hmi1 : 0 ≤ mi) (hs1 : 0 ≤ s) :
    adjust_times_sub y mo d h mi s = (y, mo, d, h, mi, s) := by
  simp only [adjust_times_sub]
  split_ifs <;> first | rfl | omega

/-- The five end-of operators, for quantifying over them. -/
inductive EndOfOp
  | year
  | month
  | day
  | hour
  | minute
deriving DecidableEq

/-- Wrap an expression in the corresponding `EndOf*` node. -/
def mkEndOf : EndOfOp → TT → TT
  | .year, e => .endOfYear e
  | .month, e => .endOfMonth e
  | .day, e => .endOfDay e
  | .hour, e => .endOfHour e
  | .minute, e => .endOfMinute e

/-- The boundary tuple each `end_of_*` function snaps a moment to. -/
def snapArgs : EndOfOp → M → Int × Int × Int × Int × Int × Int
  | .year, m => (m.y, 12, 31, 0, 0, 0)
  | .month, m => (m.y, m.mo, get_num_of_days_in_month m.y m.mo, 0, 0, 0)
  | .day, m => (m.y, m.mo, m.d, 23, 59, 59)
  | .hour, m => (m.y, m.mo, m.d, m.h, 59, 59)
  | .minute, m => (m.y, m.mo, m.d, m.h, m.mi, 59)

/-- The error each `end_of_*` function reports on a non-moment value
(`end_of_day`/`hour`/`minute` reuse `CannotCalculateEndOfMonthOn`). -/
def endOfErr : EndOfOp → TT → Error
  | .year, t => .cannotCalculateEndOfYearOn t
  | _, t => .cannotCalculateEndOfMonthOn t

/-- Snapping an already-snapped moment recomputes the same boundary tuple. -/
theorem snapArgs_retract (op : EndOfOp) (m : M) :
    snapArgs op
      (M.mk (snapArgs op m).1 (snapArgs op m).2.1 (snapArgs op m).2.2.1
        (snapArgs op m).2.2.2.1 (snapArgs op m).2.2.2.2.1
        (snapArgs op m).2.2.2.2.2) = snapArgs op m := by
  cases op <;> rfl

/-- Uniform description of the five `end_of_*` functions: evaluate the inner
expression, report the non-moment error, else snap. -/
theorem calc_endOf (op : EndOfOp) (e : TT) :
    calculate (mkEndOf op e) =
      match do_calculate e with
      | .error er => .error er
      | .ok (.amount u x) => .error (endOfErr op (.amount u x))
      | .ok (.moment m) =>
          match mkDateTime (snapArgs op m).1 (snapArgs op m).2.1
            (snapArgs op m).2.2.1 (snapArgs op m).2.2.2.1
            (snapArgs op m).2.2.2.2.1 (snapArgs op m).2.2.2.2.2 with
          | some m2 => .ok (.moment m2)
          | none =>
              .error (.outOfBounds (snapArgs op m).1 (snapArgs op m).2.1
                (snapArgs op m).2.2.1 (snapArgs op m).2.2.2.1
                (snapArgs op m).2.2.2.2.1 (snapArgs op m).2.2.2.2.2)
      := by
  cases op <;>
    simp only [mkEndOf, calculate, do_calculate, end_of_year, end_of_month,
      end_of_day, end_of_hour, end_of_minute, snapArgs, endOfErr]

/-! The claims. -/

/-- Claim C3: for units `u1` finer than `u2` (precedence Second > Minute >
Hour > Day > Month > Year) and all counts `x`, `y`, adding `Amount(u1,x)` and
`Amount(u2,y)` in either operand order yields `Amount(u1, x + y *
ratio(u2→u1))`: the result unit depends only on which unit is finer, not on
operand position. -/
theorem c3_amount_addition_finer_unit :
    ∀ (u1 u2 : Unit6) (x y : Int), idx u1 < idx u2 →
      calculate (.add (.amount u1 x) (.amount u2 y)) =
        .ok (.amount u1 (x + y * unitConv u2 u1)) ∧
      calculate (.add (.amount u2 y) (.amount u1 x)) =
        .ok (.amount u1 (x + y * unitConv u2 u1)) := by
  intro u1 u2 x y h
  constructor
  · rw [calc_add]
    simp only [addT, add_to_amount]
    rw [finerUnit_of_le (Nat.le_of_lt h), unitConv_self]
    ring_nf
  · rw [calc_add]
    simp only [addT, add_to_amount]
    rw [finerUnit_of_gt h, unitConv_self]
    ring_nf

/-- Witness for C3 at `u1 = Second`, `u2 = Minute`, `x = 5`, `y = 7`:
`5s + 7min = 425s` in both operand orders. -/
theorem c3_amount_addition_finer_unit_witness :
    calculate (.add (.amount .second 5) (.amount .minute 7)) =
      .ok (.amount .second (5 + 7 * unitConv .minute .second)) ∧
    calculate (.add (.amount .minute 7) (.amount .second 5)) =
      .ok (.amount .second (5 + 7 * unitConv .minute .second)) :=
  c3_amount_addition_finer_unit .second .minute 5 7 (by decide)

/-- Claim C4: moment-amount arithmetic is legal only with the moment on the
left.  `Amount ⊕ Moment` is a `CannotAdd`/`CannotSub` error carrying the two
offending values; `Moment ⊕ Amount` applies the amount's raw count to the
calendar field selected by its unit (`applyRawAdd`/`applyRawSub`) and then
normalizes through the carry adjuster (`momentPlusRaw`/`momentMinusRaw`);
concretely, adding `Months(14)` to 2000-01-01 gives 2001-03-01. -/
theorem c4_moment_amount_operand_order :
    (∀ (u : Unit6) (x : Int) (m : M),
      calculate (.add (.amount u x) (.moment m)) =
        .error (.cannotAdd (.amount u x) (.moment m))) ∧
    (∀ (u : Unit6) (x : Int) (m : M),
      calculate (.sub (.amount u x) (.moment m)) =
        .error (.cannotSub (.amount u x) (.moment m))) ∧
    (∀ (m : M) (u : Unit6) (x : Int),
      calculate (.add (.moment m) (.amount u x)) = momentPlusRaw m u x) ∧
    (∀ (m : M) (u : Unit6) (x : Int),
      calculate (.sub (.moment m) (.amount u x)) = momentMinusRaw m u x) ∧
    calculate (.add (.moment ⟨2000, 1, 1, 0, 0, 0⟩) (.amount .month 14)) =
      .ok (.moment ⟨2001, 3, 1, 0, 0, 0⟩) := by
  refine ⟨?_, ?_, ?_, ?_, ?_⟩
  · intro u x m
    rw [calc_add]
    simp [addT]
  · intro u x m
    rw [calc_sub]
    simp [subT, sub_from_amount]
  · intro m u x
    rw [calc_add]
    simp [addT, add_to_moment]
  · intro m u x
    rw [calc_sub]
    simp [subT, sub_from_moment]
  · rw [calc_add]
    simp only [addT, add_to_moment]
    decide

/-- Counterexample for claim C5: the nested end-of operators do not collapse
to the innermost one; the outer operator is re-applied to the inner result.
`EndOfYear(EndOfMonth(2000-01-01))` evaluates to 2000-12-31, not to the inner
`EndOfMonth` result 2000-01-31. -/
theorem c5_nested_endof_not_collapsed :
    calculate (.endOfYear (.endOfMonth (.moment ⟨2000, 1, 1, 0, 0, 0⟩))) =
      .ok (.moment ⟨2000, 12, 31, 0, 0, 0⟩) ∧
    calculate (.endOfMonth (.moment ⟨2000, 1, 1, 0, 0, 0⟩)) =
      .ok (.moment ⟨2000, 1, 31, 0, 0, 0⟩) ∧
    ¬ calculate (.endOfYear (.endOfMonth (.moment ⟨2000, 1, 1, 0, 0, 0⟩))) =
        calculate (.endOfMonth (.moment ⟨2000, 1, 1, 0, 0, 0⟩)) := by
  refine ⟨?_, ?_, ?_⟩ <;>
    simp only [calculate, do_calculate, end_of_year, end_of_month] <;> decide

/-- Claim C5 as amended: collapsing holds only for a repeated operator —
for every end-of operator `O` and every expression `e`,
`calculate(O(O(e))) = calculate(O(e))` (the snap is idempotent); for two
distinct operators the outer one is re-applied to the inner result
(see the counterexample). -/
theorem c5_endof_idempotent :
    ∀ (op : EndOfOp) (e : TT),
      calculate (mkEndOf op (mkEndOf op e)) = calculate (mkEndOf op e) := by
  intro op e
  have houter := calc_endOf op (mkEndOf op e)
  have hinner := calc_endOf op e
  have hdo : do_calculate (mkEndOf op e) = calculate (mkEndOf op e) := rfl
  rcases h : do_calculate e with er | ⟨u, x⟩ | m
  · have hI : calculate (mkEndOf op e) = .error er := by rw [hinner, h]
    rw [houter, hdo, hI]
  · have hI : calculate (mkEndOf op e) = .error (endOfErr op (.amount u x)) := by
      rw [hinner, h]
    rw [houter, hdo, hI]
  · have hI : calculate (mkEndOf op e) =
        match mkDateTime (snapArgs op m).1 (snapArgs op m).2.1
          (snapArgs op m).2.2.1 (snapArgs op m).2.2.2.1
          (snapArgs op m).2.2.2.2.1 (snapArgs op m).2.2.2.2.2 with
        | some m2 => .ok (.moment m2)
        | none =>
            .error (.outOfBounds (snapArgs op m).1 (snapArgs op m).2.1
              (snapArgs op m).2.2.1 (snapArgs op m).2.2.2.1
              (snapArgs op m).2.2.2.2.1 (snapArgs op m).2.2.2.2.2) := by
      rw [hinner, h]
    rw [houter, hdo, hI]
    rcases hmk : mkDateTime (snapArgs op m).1 (snapArgs op m).2.1
      (snapArgs op m).2.2.1 (snapArgs op m).2.2.2.1
      (snapArgs op m).2.2.2.2.1 (snapArgs op m).2.2.2.2.2 with _ | m2
    · rfl
    · have hm2 := mkDateTime_some hmk
      subst hm2
      simp only [snapArgs_retract, hmk]

/-- Counterexample for claim C6: the day-count round trip fails across a
month boundary.  2017-02-28 plus one day is 2017-03-01, but subtracting one
day from 2017-03-01 borrows with the constant span 31 and builds the invalid
date February 31, returning `OutOfBounds` instead of `Ok(2017-02-28)`. -/
theorem c6_day_roundtrip_counterexample :
    calculate (.add (.moment ⟨2017, 2, 28, 0, 0, 0⟩) (.amount .day 1)) =
      .ok (.moment ⟨2017, 3, 1, 0, 0, 0⟩) ∧
    calculate (.sub (.moment ⟨2017, 3, 1, 0, 0, 0⟩) (.amount .day 1)) =
      .error (.outOfBounds 2017 2 0 0 0 0) ∧
    ¬ calculate (.sub (.moment ⟨2017, 3, 1, 0, 0, 0⟩) (.amount .day 1)) =
        .ok (.moment ⟨2017, 2, 28, 0, 0, 0⟩) := by
  refine ⟨?_, ?_, ?_⟩
  · rw [calc_add]
    simp only [addT, add_to_moment]
    decide
  · rw [calc_sub]
    simp only [subT, sub_from_moment]
    decide
  · rw [calc_sub]
    simp only [subT, sub_from_moment]
    decide

/-- Claim C6 as amended: the day-count round trip holds whenever the
addition stays inside the month, i.e. for every valid moment `m` and day
count `d` with `1 ≤ m.d + d ≤` the real length of `m`'s month, adding and
then subtracting `Days(d)` returns `Ok(Moment(m))`. -/
theorem c6_day_roundtrip_within_month :
    ∀ (m : M) (d : Int), M.valid m = true →
      1 ≤ m.d + d → m.d + d ≤ get_num_of_days_in_month m.y m.mo →
      calculate (.add (.moment m) (.amount .day d)) =
        .ok (.moment (M.mk m.y m.mo (m.d + d) m.h m.mi m.s)) ∧
      calculate (.sub (.moment (M.mk m.y m.mo (m.d + d) m.h m.mi m.s))
          (.amount .day d)) =
        .ok (.moment m) := by
  intro m d hv h1 h2
  simp only [M.valid, validYMD, validHMS, Bool.and_eq_true,
    decide_eq_true_eq] at hv
  constructor
  · rw [calc_add]
    simp only [addT, add_to_moment, momentPlusRaw, applyRawAdd]
    rw [adjust_times_add_of_valid m.y m.mo (m.d + d) m.h m.mi m.s (by omega) h2
      (by omega) (by omega) (by omega) (by omega) (by omega) (by omega)]
    have hcond : (validYMD m.y m.mo (m.d + d) && validHMS m.h m.mi m.s) = true := by
      simp only [validYMD, validHMS, Bool.and_eq_true, decide_eq_true_eq]
      omega
    simp only [momentFromTuple, mkDateTime]
    rw [if_pos hcond]
  · rw [calc_sub]
    simp only [subT, sub_from_moment, momentMinusRaw, applyRawSub]
    have hdd : m.d + d - d = m.d := by omega
    rw [hdd]
    rw [adjust_times_sub_of_valid m.y m.mo m.d m.h m.mi m.s (by omega) (by omega)
      (by omega) (by omega) (by omega)]
    have hcond : (validYMD m.y m.mo m.d && validHMS m.h m.mi m.s) = true := by
      simp only [validYMD, validHMS, Bool.and_eq_true, decide_eq_true_eq]
      omega
    simp only [momentFromTuple, mkDateTime]
    rw [if_pos hcond]

/-- Witness for the amended C6 at `m = 2021-06-10T12:30:45`, `d = 7`. -/
theorem c6_day_roundtrip_within_month_witness :
    calculate (.add (.moment ⟨2021, 6, 10, 12, 30, 45⟩) (.amount .day 7)) =
      .ok (.moment (M.mk 2021 6 (10 + 7) 12 30 45)) ∧
    calculate (.sub (.moment (M.mk 2021 6 (10 + 7) 12 30 45)) (.amount .day 7)) =
      .ok (.moment ⟨2021, 6, 10, 12, 30, 45⟩) :=
  c6_day_roundtrip_within_month ⟨2021, 6, 10, 12, 30, 45⟩ 7 (by decide)
    (by decide) (by decide)

/-- Claim C7: end-of-month snapping is leap-year aware.  Whenever the inner
expression evaluates to a (chrono-valid) moment `m`, `EndOfMonth` returns the
moment at the last real day of `m`'s month at 00:00:00; in particular
`EndOfMonth(2000-01-01)` is 2000-01-31 and `EndOfMonth(2000-02-01)` is
2000-02-29, because 2000 is a leap year. -/
theorem c7_end_of_month_last_day :
    (∀ (t : TT) (m : M), calculate t = .ok (.moment m) → M.valid m = true →
      calculate (.endOfMonth t) =
        .ok (.moment (M.mk m.y m.mo (get_num_of_days_in_month m.y m.mo) 0 0 0))) ∧
    calculate (.endOfMonth (.moment ⟨2000, 1, 1, 0, 0, 0⟩)) =
      .ok (.moment ⟨2000, 1, 31, 0, 0, 0⟩) ∧
    calculate (.endOfMonth (.moment ⟨2000, 2, 1, 0, 0, 0⟩)) =
      .ok (.moment ⟨2000, 2, 29, 0, 0, 0⟩) ∧
    is_leap_year 2000 = true := by
  refine ⟨?_, ?_, ?_, ?_⟩
  · intro t m h hv
    rw [show TT.endOfMonth t = mkEndOf .month t from rfl, calc_endOf]
    rw [show do_calculate t = calculate t from rfl, h]
    simp only [M.valid, validYMD, validHMS, Bool.and_eq_true,
      decide_eq_true_eq] at hv
    have hcond : (validYMD m.y m.mo (get_num_of_days_in_month m.y m.mo) &&
        validHMS 0 0 0) = true := by
      simp only [validYMD, validHMS, Bool.and_eq_true, decide_eq_true_eq]
      have := days_in_month_ge_28 m.y m.mo
      omega
    simp only [snapArgs, mkDateTime]
    rw [if_pos hcond]
  · simp only [calculate, do_calculate, end_of_month]
    decide
  · simp only [calculate, do_calculate, end_of_month]
    decide
  · decide

/-- Witness for C7 at the inner expression `Moment(1999-05-07T03:04:05)`
(May 1999 has 31 days). -/
theorem c7_end_of_month_last_day_witness :
    calculate (.moment ⟨1999, 5, 7, 3, 4, 5⟩) =
      .ok (.moment ⟨1999, 5, 7, 3, 4, 5⟩) ∧
    M.valid ⟨1999, 5, 7, 3, 4, 5⟩ = true ∧
    calculate (.endOfMonth (.moment ⟨1999, 5, 7, 3, 4, 5⟩)) =
      .ok (.moment (M.mk 1999 5 (get_num_of_days_in_month 1999 5) 0 0 0)) :=
  ⟨calculate_moment _, by decide,
    c7_end_of_month_last_day.1 (.moment ⟨1999, 5, 7, 3, 4, 5⟩)
      ⟨1999, 5, 7, 3, 4, 5⟩ (calculate_moment _) (by decide)⟩

/-- Counterexample for claim C2: subtracting across a month boundary borrows
with the constant span 31, not the real month length.  Borrowing one second
out of 2017-03-01T00:00:00 produces the tuple (2017, 2, 31, 23, 59, 59):
day 31 in February 2017, whose real length is 28 — the result is not a valid
calendar tuple. -/
theorem c2_day_borrow_constant_counterexample :
    adjust_times_sub 2017 3 1 0 0 (-1) = (2017, 2, 31, 23, 59, 59) ∧
    get_num_of_days_in_month 2017 2 = 28 ∧
    validYMD 2017 2 31 = false := by
  decide

/-- Claim C2 as amended: the stages do run in the fixed order seconds,
minutes, hours, days, months, years, and when a field has gone negative by
less than one full span the next-coarser field is decremented by exactly one
unit and one full span is added back — but the spans are the constants 60,
60, 24, 31 and 12: the day stage uses 31 regardless of the real month length,
and the resulting tuple need not be a valid calendar date (see the
counterexample). -/
theorem c2_single_stage_borrow_spans :
    ∀ y mo d h mi s : Int,
      -60 < s → s < 60 →
      ∀ mi1 : Int, mi1 = (if s < 0 then mi - 1 else mi) →
      -60 < mi1 → mi1 < 60 →
      ∀ h1 : Int, h1 = (if mi1 < 0 then h - 1 else h) →
      -24 < h1 → h1 < 24 →
      ∀ d1 : Int, d1 = (if h1 < 0 then d - 1 else d) →
      -31 ≤ d1 →
      ∀ mo1 : Int, mo1 = (if d1 < 1 then mo - 1 else mo) →
      -12 ≤ mo1 →
      adjust_times_sub y mo d h mi s =
        (if mo1 < 1 then y - 1 else y,
         if mo1 < 1 then mo1 + 12 else mo1,
         if d1 < 1 then d1 + 31 else d1,
         if h1 < 0 then h1 + 24 else h1,
         if mi1 < 0 then mi1 + 60 else mi1,
         if s < 0 then s + 60 else s) := by
  intro y mo d h mi s hs1 hs2 mi1 hmi1 hmi2 hmi3 h1 hh1 hh2 hh3 d1 hd1 hd2
    mo1 hmo1 hmo2
  simp only [adjust_times_sub, Int.abs_eq_natAbs]
  have a1 : mi - ((s.natAbs : Int) / 60 + 1) = mi - 1 := by omega
  rw [a1, ← hmi1]
  have a2 : (if s < 0 then 60 - (s.natAbs : Int) else s) =
      (if s < 0 then s + 60 else s) := by
    split_ifs with hx
    · omega
    · rfl
  rw [a2]
  have a3 : h - ((mi1.natAbs : Int) / 60 + 1) = h - 1 := by omega
  rw [a3, ← hh1]
  have a4 : (if mi1 < 0 then 60 - (mi1.natAbs : Int) else mi1) =
      (if mi1 < 0 then mi1 + 60 else mi1) := by
    split_ifs with hx
    · omega
    · rfl
  rw [a4]
  have a5 : d - ((h1.natAbs : Int) / 24 + 1) = d - 1 := by omega
  rw [a5, ← hd1]
  have a6 : (if h1 < 0 then 24 - (h1.natAbs : Int) else h1) =
      (if h1 < 0 then h1 + 24 else h1) := by
    split_ifs with hx
    · omega
    · rfl
  rw [a6]
  have a7 : (if d1 < 1 then mo - ((d1.natAbs : Int) / 32 + 1) else mo) =
      (if d1 < 1 then mo - 1 else mo) := by
    split_ifs with hx
    · omega
    · rfl
  rw [a7, ← hmo1]
  have a8 : (if d1 < 1 then 31 - (d1.natAbs : Int) else d1) =
      (if d1 < 1 then d1 + 31 else d1) := by
    split_ifs with hx
    · omega
    · rfl
  rw [a8]
  have a9 : (if mo1 < 1 then y - ((mo1.natAbs : Int) / 13 + 1) else y) =
      (if mo1 < 1 then y - 1 else y) := by
    split_ifs with hx
    · omega
    · rfl
  rw [a9]
  have a10 : (if mo1 < 1 then 12 - (mo1.natAbs : Int) else mo1) =
      (if mo1 < 1 then mo1 + 12 else mo1) := by
    split_ifs with hx
    · omega
    · rfl
  rw [a10]

/-- Witness for the amended C2 at the tuple (2017, 3, 1, 0, 0, -1): one
second before 2017-03-01T00:00:00 borrows down to the (invalid) February 31,
23:59:59. -/
theorem c2_single_stage_borrow_spans_witness :
    adjust_times_sub 2017 3 1 0 0 (-1) = (2017, 2, 31, 23, 59, 59) := by
  have h := c2_single_stage_borrow_spans 2017 3 1 0 0 (-1) (by decide) (by decide)
    (-1) (by decide) (by decide) (by decide)
    (-1) (by decide) (by decide) (by decide)
    0 (by decide) (by decide)
    2 (by decide) (by decide)
  simpa using h

/-- Claim C8: tokenizer alias precedence.  The unit parser consumes all of
`"seconds"` (no dangling `"s"`) and returns `Second`, for any continuation of
the input; the iteration-spec parser consumes all of `"secondly"` and returns
the `Secondly` keyword rather than `1 second` with leftover `"ly"`: in both
alternation lists the longer aliases are tried before their shorter
prefixes. -/
theorem c8_unit_alias_precedence :
    (∀ rest : List Char,
      unitParser ("seconds".toList ++ rest) = some (rest, Unit7.second)) ∧
    (∀ rest : List Char,
      iterSpec ("secondly".toList ++ rest) = some (rest, IterspecSyn.secondly)) ∧
    unitParser ("seconds".toList) = some ([], Unit7.second) ∧
    iterSpec ("secondly".toList) = some ([], IterspecSyn.secondly) := by
  have hpre : ∀ (l rest : List Char), l.isPrefixOf (l ++ rest) = true := by
    intro l rest
    rw [List.isPrefixOf_iff_prefix]
    exact List.prefix_append l rest
  refine ⟨?_, ?_, ?_, ?_⟩
  · intro rest
    simp [unitParser, palt2, pmap, ptag, hpre, List.drop_left]
  · intro rest
    simp [iterSpec, palt2, pmap, ptag, hpre, List.drop_left]
  · decide
  · decide

/-! Claim C9: helper development for `TimesIter`. -/

/-- An abstract inner sequence for `TimesIter`: the state is a cursor index
into a stream of items, so the cursor position records exactly how many inner
items have been pulled and inspected. -/
def streamNext (f : Nat → Except Error TT) : Nat → Option (Except Error TT) × Nat :=
  fun k => (some (f k), k + 1)

/-- State of a `TimesIter` over a cursor stream after `k` pulls, starting from
count `c ≤ n`: the cursor (and count) advance to `min (c + k) n` and never
beyond `n`. -/
theorem times_state (f : Nat → Except Error TT) (n : Nat) :
    ∀ (k c : Nat), c ≤ n →
      TimesIter.stateAfter (streamNext f) (TimesIter.mk c (n : Int) (c : Int)) k =
        TimesIter.mk (min (c + k) n) (n : Int) ((min (c + k) n : Nat) : Int) := by
  intro k
  induction k with
  | zero =>
    intro c hc
    simp only [TimesIter.stateAfter, TimesIter.mk.injEq]
    refine ⟨by omega, trivial, by push_cast; omega⟩
  | succ k ih =>
    intro c hc
    simp only [TimesIter.stateAfter]
    by_cases hcn : c = n
    · subst hcn
      have hnext : TimesIter.next (streamNext f) (TimesIter.mk c (c : Int) (c : Int)) =
          (none, TimesIter.mk c (c : Int) (c : Int)) := by
        simp [TimesIter.next]
      rw [hnext]
      have := ih c hc
      rw [this]
      simp only [TimesIter.mk.injEq]
      refine ⟨by omega, trivial, by push_cast; omega⟩
    · have hlt : c < n := by omega
      have hnext : TimesIter.next (streamNext f) (TimesIter.mk c (n : Int) (c : Int)) =
          (some (f c), TimesIter.mk (c + 1) (n : Int) ((c : Int) + 1)) := by
        simp only [TimesIter.next]
        rw [if_neg]
        · rfl
        · simp only [beq_iff_eq]
          omega
      rw [hnext]
      have hcast : ((c : Int) + 1) = (((c + 1 : Nat)) : Int) := by omega
      rw [hcast]
      have := ih (c + 1) (by omega)
      rw [this]
      simp only [TimesIter.mk.injEq]
      refine ⟨by omega, trivial, by push_cast; omega⟩

/-- Claim C9: for every count `n` and every inner sequence, `TimesIter` yields
exactly the first `n` items of the inner sequence in order (errors included as
items) and then returns end-of-sequence, and it never pulls or inspects an
inner item beyond the `n`-th: after `k` pulls the inner cursor stands at
`min k n`, the `k`-th pull (0-indexed) yields item `k` of the inner sequence
when `k < n`, and yields end-of-sequence when `n ≤ k`. -/
theorem c9_times_iter_yields_first_n :
    ∀ (f : Nat → Except Error TT) (n k : Nat),
      (TimesIter.stateAfter (streamNext f) (TimesIter.mk 0 (n : Int) 0) k).inner =
        min k n ∧
      (k < n →
        (TimesIter.next (streamNext f)
          (TimesIter.stateAfter (streamNext f) (TimesIter.mk 0 (n : Int) 0) k)).1 =
          some (f k)) ∧
      (n ≤ k →
        (TimesIter.next (streamNext f)
          (TimesIter.stateAfter (streamNext f) (TimesIter.mk 0 (n : Int) 0) k)).1 =
          none) := by
  intro f n k
  have h0 : (TimesIter.mk (0 : Nat) ((n : Nat) : Int) (0 : Int)) =
      (TimesIter.mk (0 : Nat) (n : Int) ((0 : Nat) : Int)) := by norm_num
  have hst := times_state f n k 0 (by omega)
  rw [h0, hst]
  refine ⟨?_, ?_, ?_⟩
  · show min (0 + k) n = min k n
    omega
  · intro hk
    have hmin : min (0 + k) n = k := by omega
    rw [hmin]
    simp only [TimesIter.next]
    rw [if_neg]
    · rfl
    · simp only [beq_iff_eq]
      omega
  · intro hk
    have hmin : min (0 + k) n = n := by omega
    rw [hmin]
    simp only [TimesIter.next]
    rw [if_pos]
    simp only [beq_iff_eq]

/-- A concrete stream of moment items for instantiating the `TimesIter`
theorem. -/
def hourStream : Nat → Except Error TT :=
  fun k => .ok (.moment (M.mk 2017 1 1 (k : Int) 0 0))

theorem c9_times_iter_yields_first_n_witness :
    (TimesIter.next (streamNext hourStream)
      (TimesIter.stateAfter (streamNext hourStream)
        (TimesIter.mk 0 ((3 : Nat) : Int) 0) 1)).1 = some (hourStream 1) ∧
    (TimesIter.next (streamNext hourStream)
      (TimesIter.stateAfter (streamNext hourStream)
        (TimesIter.mk 0 ((3 : Nat) : Int) 0) 5)).1 = none :=
  ⟨(c9_times_iter_yields_first_n hourStream 3 1).2.1 (by decide),
   (c9_times_iter_yields_first_n hourStream 3 5).2.2 (by decide)⟩

/-! Claim C10: helper development for the moment invariant of `Iter`. -/

/-- Expressions of the shape the recurrence iterator keeps as its base: a
moment with zero or more pending amount additions (the base after a failed
`recalculate` keeps its `Addition` wrapper). -/
inductive Momentish : TT → Prop
  | moment (m : M) : Momentish (.moment m)
  | step (t : TT) (u : Unit6) (x : Int) : Momentish t →
      Momentish (.add t (.amount u x))

theorem momentFromTuple_shape (t : Int × Int × Int × Int × Int × Int) :
    (∃ e, momentFromTuple t = .error e) ∨
      (∃ m, momentFromTuple t = .ok (.moment m)) := by
  unfold momentFromTuple
  rcases h : mkDateTime t.1 t.2.1 t.2.2.1 t.2.2.2.1 t.2.2.2.2.1 t.2.2.2.2.2 with
    _ | m
  · exact Or.inl ⟨_, rfl⟩
  · exact Or.inr ⟨m, rfl⟩

theorem momentPlusRaw_shape (m : M) (u : Unit6) (a : Int) :
    (∃ e, momentPlusRaw m u a = .error e) ∨
      (∃ m2, momentPlusRaw m u a = .ok (.moment m2)) := by
  unfold momentPlusRaw
  exact momentFromTuple_shape _

/-- Adding an amount to a moment goes through the raw-field update and the
carry adjuster. -/
theorem addT_moment_amount (m : M) (u : Unit6) (x : Int) :
    addT (.moment m) (.amount u x) = momentPlusRaw m u x := by
  simp only [addT, add_to_moment]

/-- Evaluating a momentish expression never produces an amount: it is an
error or a moment. -/
theorem calc_momentish {t : TT} (h : Momentish t) :
    (∃ e, calculate t = .error e) ∨ (∃ m, calculate t = .ok (.moment m)) := by
  induction h with
  | moment m => exact Or.inr ⟨m, calculate_moment m⟩
  | step t u x ht ih =>
    rw [calc_add]
    cases ht with
    | moment m =>
      rw [addT_moment_amount]
      exact momentPlusRaw_shape m u x
    | step t2 u2 x2 ht2 =>
      rw [calc_add] at ih
      rcases ih with ⟨e, he⟩ | ⟨m, hm⟩
      · refine Or.inl ⟨e, ?_⟩
        simp only [addT]
        rw [he]
      · have : addT (TT.add t2 (TT.amount u2 x2)) (TT.amount u x) =
            addT (Reduced.toTT (.moment m)) (TT.amount u x) := by
          simp only [addT]
          rw [hm]
        rw [this]
        simp only [Reduced.toTT]
        rw [addT_moment_amount]
        exact momentPlusRaw_shape m u x

/-- The invariant maintained by `Iter`: the base stays momentish and the
increment stays an amount. -/
def IterInv (it : Iter) : Prop :=
  Momentish it.base ∧ ∃ u x, it.increment = TT.amount u x

theorem next_inv {it : Iter} (h : IterInv it) :
    IterInv (it.next).2 ∧
      ∀ tt, (it.next).1 = .ok tt → tt.is_moment = true := by
  obtain ⟨hb, u, x, hinc⟩ := h
  have hmom : Momentish (TT.add it.base it.increment) := by
    rw [hinc]; exact Momentish.step _ u x hb
  rcases calc_momentish hmom with ⟨e, he⟩ | ⟨m, hm⟩
  · have hn : it.next =
        (.error e, { it with base := TT.add it.base it.increment }) := by
      simp only [Iter.next, Iter.skip]
      rw [he]
    rw [hn]
    refine ⟨⟨hmom, u, x, hinc⟩, ?_⟩
    intro tt htt
    exact Except.noConfusion htt
  · have hn : it.next = (.ok (TT.moment m), { it with base := TT.moment m }) := by
      simp only [Iter.next, Iter.skip]
      rw [hm]
      simp only [Reduced.toTT]
    rw [hn]
    refine ⟨⟨Momentish.moment m, u, x, hinc⟩, ?_⟩
    intro tt htt
    simp only [Except.ok.injEq] at htt
    subst htt
    rfl

theorem pullAt_moment {it : Iter} (h : IterInv it) :
    ∀ (k : Nat) (tt : TT), (it.pullAt k).1 = .ok tt → tt.is_moment = true := by
  intro k
  induction k generalizing it with
  | zero =>
    intro tt htt
    exact (next_inv h).2 tt htt
  | succ k ih =>
    intro tt htt
    exact ih (next_inv h).1 tt htt

/-- Claim C10: every successful item of the recurrence iterator is a moment.
For every base moment, every increment accepted by `Iter.build` and every
number of pulls, a pull that returns `Ok tt` has `tt` a `Moment` variant,
never an amount or a composite node, even when earlier pulls returned
errors. -/
theorem c10_iter_items_are_moments (b : M) (inc : TT) (st : Iter) (k : Nat)
    (tt : TT) (hbuild : Iter.build b inc = .ok st)
    (hpull : (st.pullAt k).1 = .ok tt) : tt.is_moment = true := by
  have hinv : IterInv st := by
    rcases hA : inc.is_a_amount with _ | _
    · simp [Iter.build, hA] at hbuild
    · obtain ⟨u, x, rfl⟩ : ∃ u x, inc = TT.amount u x := by
        cases inc <;> simp_all [TT.is_a_amount]
      simp [Iter.build, TT.is_a_amount] at hbuild
      rw [← hbuild]
      exact ⟨Momentish.moment b, u, x, rfl⟩
  exact pullAt_moment hinv k tt hpull

theorem c10_iter_items_are_moments_witness :
    (TT.moment (M.mk 2017 1 1 1 0 0)).is_moment = true := by
  have e1 : momentPlusRaw (M.mk 2017 1 1 0 0 0) Unit6.hour 1 =
      .ok (.moment (M.mk 2017 1 1 1 0 0)) := by decide
  refine c10_iter_items_are_moments (M.mk 2017 1 1 0 0 0) (TT.amount Unit6.hour 1)
    (Iter.mk (TT.moment (M.mk 2017 1 1 0 0 0)) (TT.amount Unit6.hour 1)) 0
    (TT.moment (M.mk 2017 1 1 1 0 0)) (by decide) ?_
  simp only [Iter.pullAt, Iter.next, Iter.skip, calc_add, addT_moment_amount,
    e1, Reduced.toTT]

/-! Claim C1: the full pipeline on the repository's until-iterator example. -/

/-- The input text of the until-iterator example. -/
def c1input : List Char := ("2017-01-01 hourly until 2017-01-01T05:00:00").toList

/-- Claim C1, as the code behaves: parsing
`2017-01-01 hourly until 2017-01-01T05:00:00` succeeds and lowering it (for
any ambient clock) yields the until-iterator with base `2017-01-01T00:00:00`,
increment one hour and bound `2017-01-01T05:00:00`; but exhausting that
iterator yields the FOUR moments 01:00:00 through 04:00:00 and then
end-of-sequence: `Iter::next` advances the base before yielding, so the base
moment 00:00:00 is never an item, and the strict exclusive bound cuts the
sequence at 04:00:00. -/
theorem c1_hourly_until_pipeline :
    ∀ now : M,
      iteratorP (c1input.length + 1) c1input =
        some ([], IteratorSyn.mk (DateSyn.mk (ExactDateSyn.isoDate 2017 1 1) none)
          IterspecSyn.hourly
          (some (UntilSpecSyn.exact (ExactDateSyn.isoDateTime 2017 1 1 5 0 0)))) ∧
      IteratorSyn.into_user_iterator now
          (IteratorSyn.mk (DateSyn.mk (ExactDateSyn.isoDate 2017 1 1) none)
            IterspecSyn.hourly
            (some (UntilSpecSyn.exact (ExactDateSyn.isoDateTime 2017 1 1 5 0 0)))) =
        .ok (.untilI (UntilIter.mk
          (Iter.mk (.moment (M.mk 2017 1 1 0 0 0)) (.amount .hour 1))
          (M.mk 2017 1 1 5 0 0))) ∧
      UserIterator.pulls
          (.untilI (UntilIter.mk
            (Iter.mk (.moment (M.mk 2017 1 1 0 0 0)) (.amount .hour 1))
            (M.mk 2017 1 1 5 0 0))) 6 =
        [some (.ok (.moment (M.mk 2017 1 1 1 0 0))),
         some (.ok (.moment (M.mk 2017 1 1 2 0 0))),
         some (.ok (.moment (M.mk 2017 1 1 3 0 0))),
         some (.ok (.moment (M.mk 2017 1 1 4 0 0))),
         none, none] := by
  intro now
  refine ⟨by decide, ?_, ?_⟩
  · norm_num [IteratorSyn.into_user_iterator, DateSyn.toTT, ExactDateSyn.toTT,
      iterspecToRecur, unitToAmount, into_ndt, calculate_moment, Iter.build,
      TT.is_a_amount, mkDateTime, validYMD, validHMS, get_num_of_days_in_month,
      is_leap_year]
  · have h1 : ∀ (m : M) (hr : Int),
        calculate (.add (.moment m) (.amount .hour hr)) =
          momentPlusRaw m .hour hr := by
      intro m hr
      rw [calc_add, addT_moment_amount]
    have e1 : momentPlusRaw (M.mk 2017 1 1 0 0 0) .hour 1 =
        .ok (.moment (M.mk 2017 1 1 1 0 0)) := by decide
    have e2 : momentPlusRaw (M.mk 2017 1 1 1 0 0) .hour 1 =
        .ok (.moment (M.mk 2017 1 1 2 0 0)) := by decide
    have e3 : momentPlusRaw (M.mk 2017 1 1 2 0 0) .hour 1 =
        .ok (.moment (M.mk 2017 1 1 3 0 0)) := by decide
    have e4 : momentPlusRaw (M.mk 2017 1 1 3 0 0) .hour 1 =
        .ok (.moment (M.mk 2017 1 1 4 0 0)) := by decide
    have e5 : momentPlusRaw (M.mk 2017 1 1 4 0 0) .hour 1 =
        .ok (.moment (M.mk 2017 1 1 5 0 0)) := by decide
    have e6 : momentPlusRaw (M.mk 2017 1 1 5 0 0) .hour 1 =
        .ok (.moment (M.mk 2017 1 1 6 0 0)) := by decide
    simp [UserIterator.pulls, UserIterator.next, UntilIter.next, Iter.next,
      Iter.skip, h1, e1, e2, e3, e4, e5, e6, calculate_moment, momentLt,
      Reduced.toTT]

end Kairos
